import Mathlib

/-!
Shallow embedding of `src/cg_model.py` (the coherence-gradient chaos model).

Floats are modelled as real numbers.  A numpy `ndarray` is modelled by its
shape (a list of naturals) together with its flat row-major data (a list of
reals).  The stored propagator matrix of a `CGModel` is modelled as a list
of rows, each a list of reals; exceptions raised by the Python code are
modelled by the `Except` monad with one error constructor per raise site,
named after the spec's error taxonomy (every raise in the source is a
`ValueError` with a distinguishing message; the spec assigns each site a
distinct error name).
-/

namespace ChaosCG

/-- Error taxonomy of the spec (section 7); each constructor corresponds to
exactly one `raise ValueError` site in `cg_model.py`. -/
inductive CGErr where
  | shapeError
  | rangeError
  | fitWindowError
  | fitDataError
  deriving DecidableEq, Repr

/-- A numpy ndarray after `np.array(..., dtype=float)` conversion: its shape
and its flat row-major entries. -/
structure NDArray where
  shape : List Nat
  flat : List ℝ

/-- The numpy `a.ndim`: the number of axes. -/
def NDArray.ndim (a : NDArray) : Nat := a.shape.length

/-- Well-formedness of a numpy array: the flat data has exactly
`prod(shape)` entries (true of every real ndarray). -/
def NDArray.wf (a : NDArray) : Prop := a.flat.length = a.shape.prod

/-- Dot product of two rows, `sum_k r_k * v_k` (numpy `row @ v`). -/
def dot (r v : List ℝ) : ℝ := (List.zipWith (· * ·) r v).sum

/-- Dense matrix–vector product `T @ v` of numpy, row by row. -/
def mulVec (T : List (List ℝ)) (v : List ℝ) : List ℝ := T.map fun row => dot row v

/-- The `CGModel` dataclass: it stores the (already converted) propagator
matrix `T_infty` as its list of rows. -/
structure CGModel where
  T_infty : List (List ℝ)

/-- The numpy `self.T_infty.shape[0]`: the dimension `d` of the stored matrix. -/
def CGModel.dim (m : CGModel) : Nat := m.T_infty.length

/-- Reassemble the rows of a rank-2 ndarray from its flat data:
row `i` is `flat[i*shape[1] : i*shape[1] + shape[1]]`. -/
def NDArray.toRows (a : NDArray) : List (List ℝ) :=
  (List.range (a.shape.getD 0 0)).map fun i =>
    (a.flat.drop (i * a.shape.getD 1 0)).take (a.shape.getD 1 0)

/-- Embedding of `CGModel.__post_init__` (cg_model.py lines 45-48): after the
`np.array(..., dtype=float)` conversion, raise
`ValueError("T_infty must be a square 2D array")` unless the array is
rank-2 and square; otherwise the constructed object stores the matrix. -/
def mkCGModel (a : NDArray) : Except CGErr CGModel :=
  if a.ndim ≠ 2 ∨ a.shape.getD 0 0 ≠ a.shape.getD 1 0 then .error .shapeError
  else .ok ⟨a.toRows⟩

/-- The trajectory built by the loop in `CGModel.evolve`:
`traj = [psi]; for _ in range(n): psi = T @ psi; traj.append(psi)`. -/
def trajFrom (T : List (List ℝ)) : List ℝ → Nat → List (List ℝ)
  | psi, 0 => [psi]
  | psi, n + 1 => psi :: trajFrom T (mulVec T psi) n

/-- Embedding of `CGModel.evolve` (cg_model.py lines 53-66).  The step count is an
integer: Python's `range(n_steps)` is empty for nonpositive `n_steps`,
which `Int.toNat` captures.  The shape check
`psi.ndim != 1 or psi.shape[0] != self.T_infty.shape[0]` raises
`ValueError` (ShapeError). -/
def CGModel.evolve (m : CGModel) (psi0 : NDArray) (nSteps : Int) :
    Except CGErr (List (List ℝ)) :=
  if psi0.ndim ≠ 1 ∨ psi0.shape.getD 0 0 ≠ m.dim then .error .shapeError
  else .ok (trajFrom m.T_infty psi0.flat nSteps.toNat)

/-- The numpy `np.linalg.norm v` for a real vector: the Euclidean norm. -/
noncomputable def euclNorm (v : List ℝ) : ℝ := Real.sqrt ((v.map fun x => x ^ 2).sum)

/-- The numpy `np.linalg.norm(t - t', axis=1)`: the row-wise Euclidean distance
between two trajectories. -/
noncomputable def distSeq (t t' : List (List ℝ)) : List ℝ :=
  List.zipWith (fun r r' => euclNorm (List.zipWith (· - ·) r r')) t t'

/-- Embedding of `CGModel.evolve_pair` (cg_model.py lines 68-88): evolve `psi0` first,
then `psi0_prime` (so a shape failure of the first surfaces first), then
pair the trajectories with their distance sequence `D_n`. -/
noncomputable def CGModel.evolve_pair (m : CGModel) (psi0 psi0' : NDArray)
    (nSteps : Int) :
    Except CGErr (List (List ℝ) × List (List ℝ) × List ℝ) := do
  let t ← m.evolve psi0 nSteps
  let t' ← m.evolve psi0' nSteps
  .ok (t, t', distSeq t t')

/-- The slope of `np.polyfit(xs, ys, deg=1)`: the ordinary least-squares
line minimising the sum of squared residuals has this closed-form slope
(`np.polyfit` computes the same least-squares solution via `lstsq`;
for at least two distinct abscissae the minimiser is unique and equals
this formula). -/
noncomputable def polyfitSlope (xs ys : List ℝ) : ℝ :=
  let n : ℝ := xs.length
  let sx := xs.sum
  let sy := ys.sum
  let sxy := (List.zipWith (· * ·) xs ys).sum
  let sxx := (xs.map fun x => x ^ 2).sum
  (n * sxy - sx * sy) / (n * sxx - sx ^ 2)

/-- Embedding of `CGModel.estimate_lambda_CG` (cg_model.py lines 93-129):
clamp `fit_start` to `max(fit_start, 0)` and `fit_end` to
`min(fit_end, len(D_n) - 1)`, raise `ValueError("Fit window too small.")`
(FitWindowError) when `fit_end <= fit_start + 1`, slice
`n_all[fit_start:fit_end]` and `D_n[fit_start:fit_end]`, take `np.log`
of the distance slice (modelled by `Real.log`; the code performs no
positivity check on the sliced distances) and fit a degree-1 polynomial,
returning the slope together with the fit indices and log-distances. -/
noncomputable def CGModel.estimate_lambda_CG (m : CGModel) (psi0 psi0' : NDArray)
    (nSteps fitStart fitEnd : Int) :
    Except CGErr (ℝ × List Nat × List ℝ) := do
  let r ← m.evolve_pair psi0 psi0' nSteps
  let Dn := r.2.2
  let nAll := List.range Dn.length
  let fs := max fitStart 0
  let fe := min fitEnd ((Dn.length : Int) - 1)
  if fe ≤ fs + 1 then .error .fitWindowError
  else
    let nFit := (nAll.drop fs.toNat).take (fe - fs).toNat
    let logDFit := ((Dn.drop fs.toNat).take (fe - fs).toNat).map Real.log
    .ok (polyfitSlope (nFit.map fun i => (i : ℝ)) logDFit, nFit, logDFit)

/-- The stored list-of-rows matrix as a Mathlib matrix over `ℂ` (numpy's
`eigvals` works over the complex numbers; the real entries are coerced).
Out-of-range accesses default to `0` and never occur on square matrices. -/
noncomputable def toMatC (T : List (List ℝ)) : Matrix (Fin T.length) (Fin T.length) ℂ :=
  fun i j => ((T.getD i []).getD j 0 : ℝ)

/-- Embedding of `CGModel.spectral_radius` (cg_model.py lines 134-137):
`np.max(np.abs(np.linalg.eigvals(T)))`.  The eigenvalues of a complex
square matrix form its spectrum; the maximum of the moduli of a finite
nonempty set is its supremum, so the returned value is the supremum of
the moduli of the spectrum.  On a 0×0 matrix the source raises a
ValueError from numpy's empty `np.max` reduction while this embedding
returns the junk value `sSup ∅ = 0`, so theorems about this definition
carry a `d ≥ 1` hypothesis. -/
noncomputable def CGModel.spectral_radius (m : CGModel) : ℝ :=
  sSup ((fun z => Complex.abs z) '' spectrum ℂ (toMatC m.T_infty))

/-- Embedding of `CGModel.operator_norm` (cg_model.py lines 139-142):
`np.max(np.linalg.svd(T, compute_uv=False))`, the largest singular value
of `T`.  The largest singular value of a matrix equals the operator
2-norm of the continuous linear map it induces on Euclidean space (the
singular values of a real matrix and of its complexification coincide),
which is how the value is embedded.  On a 0×0 matrix the source raises a
ValueError from numpy's empty `np.max` reduction while this embedding
returns the norm of the trivial map (0), so theorems about this
definition carry a `d ≥ 1` hypothesis. -/
noncomputable def CGModel.operator_norm (m : CGModel) : ℝ :=
  ‖Matrix.toEuclideanCLM (𝕜 := ℂ) (toMatC m.T_infty)‖

/-- The d×d identity matrix `np.eye` as a list of rows. -/
def idMat (d : Nat) : List (List ℝ) :=
  (List.range d).map fun i => (List.range d).map fun j => if i = j then (1 : ℝ) else 0

/-- Dense matrix–matrix product `A @ B` as lists of rows: entry `(i, j)` is
the dot product of row `i` of `A` with column `j` of `B`. -/
def matMul (A B : List (List ℝ)) : List (List ℝ) :=
  A.map fun row => (List.range (B.getD 0 []).length).map fun j =>
    dot row (B.map fun br => br.getD j 0)

/-- Embedding of `np.linalg.matrix_power(T, n)`.  numpy returns the identity for
`n = 0` and returns `T` itself for `n = 1` (a literal special case in
`numpy.linalg.matrix_power`); higher powers are products of `n` copies of
`T` (numpy uses binary decomposition, which computes the same product). -/
def matPow (T : List (List ℝ)) : Nat → List (List ℝ)
  | 0 => idMat T.length
  | 1 => T
  | n + 2 => matMul (matPow T (n + 1)) T

/-- Embedding of `CGModel.power_norm` (cg_model.py lines 144-150): raise
`ValueError("n must be >= 1")` (RangeError) when `n < 1`, else the largest
singular value of `matrix_power(T, n)`, embedded like `operator_norm`.
As with `operator_norm`, on a 0×0 matrix the source raises on numpy's
empty `np.max` reduction while this embedding returns `.ok 0`, so
theorems about this definition carry a `d ≥ 1` hypothesis. -/
noncomputable def CGModel.power_norm (m : CGModel) (n : Int) : Except CGErr ℝ :=
  if n < 1 then .error .rangeError
  else .ok ‖Matrix.toEuclideanCLM (𝕜 := ℂ) (toMatC (matPow m.T_infty n.toNat))‖

/-- The shape check of `evolve` as a predicate: `psi0` converts to a 1-D
array whose length matches the model dimension. -/
def validVec (m : CGModel) (p : NDArray) : Prop :=
  p.ndim = 1 ∧ p.shape.getD 0 0 = m.dim

instance (m : CGModel) (p : NDArray) : Decidable (validVec m p) := by
  unfold validVec; infer_instance

/-! ### Basic lemmas about the embedded operations -/

theorem trajFrom_length (T : List (List ℝ)) (psi : List ℝ) (n : Nat) :
    (trajFrom T psi n).length = n + 1 := by
  induction n generalizing psi with
  | zero => rfl
  | succ n ih => simp [trajFrom, ih]

theorem trajFrom_head (T : List (List ℝ)) (psi : List ℝ) (n : Nat) :
    (trajFrom T psi n).getD 0 [] = psi := by
  cases n <;> rfl

theorem trajFrom_step (T : List (List ℝ)) (n : Nat) :
    ∀ (psi : List ℝ) (k : Nat), k < n →
      (trajFrom T psi n).getD (k + 1) [] = mulVec T ((trajFrom T psi n).getD k []) := by
  induction n with
  | zero => intro psi k hk; omega
  | succ n ih =>
    intro psi k hk
    cases k with
    | zero =>
      show (trajFrom T (mulVec T psi) n).getD 0 [] = mulVec T psi
      exact trajFrom_head T (mulVec T psi) n
    | succ k =>
      have hk' : k < n := by omega
      show (trajFrom T (mulVec T psi) n).getD (k + 1) [] =
        mulVec T ((trajFrom T (mulVec T psi) n).getD k [])
      exact ih (mulVec T psi) k hk'

theorem evolve_eq_ok (m : CGModel) (p : NDArray) (n : Int) (h : validVec m p) :
    m.evolve p n = .ok (trajFrom m.T_infty p.flat n.toNat) := by
  rw [CGModel.evolve, if_neg]
  push_neg
  exact ⟨h.1, h.2⟩

theorem evolve_eq_err (m : CGModel) (p : NDArray) (n : Int) (h : ¬ validVec m p) :
    m.evolve p n = .error .shapeError := by
  rw [CGModel.evolve, if_pos]
  rw [validVec, not_and_or] at h
  tauto

theorem evolve_error_iff (m : CGModel) (p : NDArray) (n : Int) (e : CGErr) :
    m.evolve p n = .error e ↔ (¬ validVec m p ∧ e = .shapeError) := by
  by_cases h : validVec m p
  · simp [evolve_eq_ok m p n h, h]
  · simp [evolve_eq_err m p n h, h, eq_comm]

theorem evolve_pair_eq_ok (m : CGModel) (p p' : NDArray) (n : Int)
    (h : validVec m p) (h' : validVec m p') :
    m.evolve_pair p p' n =
      .ok (trajFrom m.T_infty p.flat n.toNat, trajFrom m.T_infty p'.flat n.toNat,
        distSeq (trajFrom m.T_infty p.flat n.toNat) (trajFrom m.T_infty p'.flat n.toNat)) := by
  rw [CGModel.evolve_pair, evolve_eq_ok m p n h, evolve_eq_ok m p' n h']
  rfl

theorem evolve_pair_error_iff (m : CGModel) (p p' : NDArray) (n : Int) (e : CGErr) :
    m.evolve_pair p p' n = .error e ↔
      ((¬ validVec m p ∨ ¬ validVec m p') ∧ e = .shapeError) := by
  by_cases h : validVec m p
  · by_cases h' : validVec m p'
    · simp [evolve_pair_eq_ok m p p' n h h', h, h']
    · rw [CGModel.evolve_pair, evolve_eq_ok m p n h, evolve_eq_err m p' n h']
      simp [h, h', eq_comm, Bind.bind, Except.bind]
  · rw [CGModel.evolve_pair, evolve_eq_err m p n h]
    simp [h, eq_comm, Bind.bind, Except.bind]

theorem distSeq_length (t t' : List (List ℝ)) :
    (distSeq t t').length = min t.length t'.length := by
  simp [distSeq]

theorem euclNorm_sub_self (r : List ℝ) : euclNorm (List.zipWith (· - ·) r r) = 0 := by
  rw [List.zipWith_same]
  have : (r.map fun a => a - a) = r.map fun _ => (0 : ℝ) := by
    simp
  rw [this, euclNorm]
  have : ((r.map fun _ => (0 : ℝ)).map fun x => x ^ 2) = r.map fun _ => (0 : ℝ) := by
    simp
  rw [this]
  simp [List.map_const']

theorem distSeq_self (t : List (List ℝ)) :
    distSeq t t = List.replicate t.length (0 : ℝ) := by
  rw [distSeq, List.zipWith_same]
  have : (t.map fun r => euclNorm (List.zipWith (· - ·) r r)) = t.map fun _ => (0 : ℝ) :=
    List.map_congr_left fun r _ => euclNorm_sub_self r
  rw [this, List.map_const']

theorem drop_range' (s : Nat) : ∀ (t a : Nat),
    (List.range' a s).drop t = List.range' (a + t) (s - t) := by
  induction s with
  | zero => intro t a; simp
  | succ s ih =>
    intro t a
    cases t with
    | zero => simp
    | succ t =>
      rw [List.range'_succ, List.drop_succ_cons, ih t (a + 1)]
      congr 1 <;> omega

theorem take_range' : ∀ (t s a : Nat),
    (List.range' a s).take t = List.range' a (min t s) := by
  intro t
  induction t with
  | zero => intro s a; simp
  | succ t ih =>
    intro s a
    cases s with
    | zero => simp
    | succ s =>
      rw [List.range'_succ, List.take_succ_cons, ih s (a + 1)]
      have : min (t + 1) (s + 1) = min t s + 1 := by omega
      rw [this, List.range'_succ]

theorem Dn_length (m : CGModel) (p p' : NDArray) (n : Nat) :
    (distSeq (trajFrom m.T_infty p.flat n) (trajFrom m.T_infty p'.flat n)).length
      = n + 1 := by
  rw [distSeq_length, trajFrom_length, trajFrom_length, min_self]

theorem estimate_eq_err (m : CGModel) (p p' : NDArray) (nSteps fitStart fitEnd : Int)
    (h : ¬ validVec m p ∨ ¬ validVec m p') :
    m.estimate_lambda_CG p p' nSteps fitStart fitEnd = .error .shapeError := by
  rw [CGModel.estimate_lambda_CG,
    (evolve_pair_error_iff m p p' nSteps .shapeError).mpr ⟨h, rfl⟩]
  rfl

theorem estimate_eq_of_valid (m : CGModel) (p p' : NDArray)
    (nSteps fitStart fitEnd : Int) (h : validVec m p) (h' : validVec m p') :
    m.estimate_lambda_CG p p' nSteps fitStart fitEnd =
      if min fitEnd (nSteps.toNat : Int) ≤ max fitStart 0 + 1 then
        .error .fitWindowError
      else
        .ok (polyfitSlope
            ((((List.range (nSteps.toNat + 1)).drop (max fitStart 0).toNat).take
                (min fitEnd (nSteps.toNat : Int) - max fitStart 0).toNat).map fun i => (i : ℝ))
            ((((distSeq (trajFrom m.T_infty p.flat nSteps.toNat)
                  (trajFrom m.T_infty p'.flat nSteps.toNat)).drop (max fitStart 0).toNat).take
                (min fitEnd (nSteps.toNat : Int) - max fitStart 0).toNat).map Real.log),
          ((List.range (nSteps.toNat + 1)).drop (max fitStart 0).toNat).take
            (min fitEnd (nSteps.toNat : Int) - max fitStart 0).toNat,
          (((distSeq (trajFrom m.T_infty p.flat nSteps.toNat)
              (trajFrom m.T_infty p'.flat nSteps.toNat)).drop (max fitStart 0).toNat).take
            (min fitEnd (nSteps.toNat : Int) - max fitStart 0).toNat).map Real.log) := by
  rw [CGModel.estimate_lambda_CG, evolve_pair_eq_ok m p p' nSteps h h']
  simp only [Bind.bind, Except.bind]
  rw [Dn_length m p p' nSteps.toNat]
  have hcast : ((nSteps.toNat + 1 : Nat) : Int) - 1 = (nSteps.toNat : Int) := by
    push_cast
    ring
  rw [hcast]

/-! ### Claim theorems -/

/-- C3: for every model of dimension d, every length-d initial vector `psi0`
and every non-negative integer `n_steps`, `evolve` returns a sequence of
exactly `n_steps + 1` vectors with `psi[0] = psi0` and
`psi[k+1] = T @ psi[k]` for `k = 0..n_steps-1`; in particular
`evolve(v, 0)` returns exactly one vector equal to `v`. -/
theorem claim_C3_evolve_spec (m : CGModel) (p : NDArray) (n : Nat)
    (h : validVec m p) :
    m.evolve p (n : Int) = .ok (trajFrom m.T_infty p.flat n) ∧
    (trajFrom m.T_infty p.flat n).length = n + 1 ∧
    (trajFrom m.T_infty p.flat n).getD 0 [] = p.flat ∧
    (∀ k : Nat, k < n →
      (trajFrom m.T_infty p.flat n).getD (k + 1) [] =
        mulVec m.T_infty ((trajFrom m.T_infty p.flat n).getD k [])) ∧
    m.evolve p 0 = .ok [p.flat] := by
  refine ⟨?_, trajFrom_length _ _ _, trajFrom_head _ _ _,
    fun k hk => trajFrom_step _ _ _ _ hk, ?_⟩
  · rw [evolve_eq_ok m p _ h]
    norm_num
  · rw [evolve_eq_ok m p _ h]
    rfl

/-- Witness for C3 at the 1×1 model `T = [[2]]`, `psi0 = [1]`, two steps. -/
theorem claim_C3_evolve_spec_witness :
    validVec ⟨[[(2 : ℝ)]]⟩ ⟨[1], [(1 : ℝ)]⟩ ∧
    ((CGModel.mk [[(2 : ℝ)]]).evolve ⟨[1], [(1 : ℝ)]⟩ ((2 : Nat) : Int) =
        .ok (trajFrom [[(2 : ℝ)]] [(1 : ℝ)] 2) ∧
      (trajFrom [[(2 : ℝ)]] [(1 : ℝ)] 2).length = 2 + 1 ∧
      (trajFrom [[(2 : ℝ)]] [(1 : ℝ)] 2).getD 0 [] = [(1 : ℝ)] ∧
      (∀ k : Nat, k < 2 →
        (trajFrom [[(2 : ℝ)]] [(1 : ℝ)] 2).getD (k + 1) [] =
          mulVec [[(2 : ℝ)]] ((trajFrom [[(2 : ℝ)]] [(1 : ℝ)] 2).getD k [])) ∧
      (CGModel.mk [[(2 : ℝ)]]).evolve ⟨[1], [(1 : ℝ)]⟩ 0 = .ok [[(1 : ℝ)]]) :=
  ⟨⟨rfl, rfl⟩, claim_C3_evolve_spec ⟨[[(2 : ℝ)]]⟩ ⟨[1], [(1 : ℝ)]⟩ 2 ⟨rfl, rfl⟩⟩

/-- C7: for every model, every valid initial vector `v` and every
non-negative `n_steps`, `evolve_pair(v, v, n_steps)` returns a distance
sequence all of whose `n_steps + 1` entries are zero. -/
theorem claim_C7_evolve_pair_same (m : CGModel) (p : NDArray) (n : Nat)
    (h : validVec m p) :
    m.evolve_pair p p (n : Int) =
      .ok (trajFrom m.T_infty p.flat n, trajFrom m.T_infty p.flat n,
        List.replicate (n + 1) (0 : ℝ)) := by
  rw [evolve_pair_eq_ok m p p _ h h]
  have hn : ((n : Int)).toNat = n := by omega
  rw [hn, distSeq_self, trajFrom_length]

/-- Witness for C7 at the 1×1 model `T = [[2]]`, `v = [1]`, three steps. -/
theorem claim_C7_evolve_pair_same_witness :
    validVec ⟨[[(2 : ℝ)]]⟩ ⟨[1], [(1 : ℝ)]⟩ ∧
    (CGModel.mk [[(2 : ℝ)]]).evolve_pair ⟨[1], [(1 : ℝ)]⟩ ⟨[1], [(1 : ℝ)]⟩ ((3 : Nat) : Int) =
      .ok (trajFrom [[(2 : ℝ)]] [(1 : ℝ)] 3, trajFrom [[(2 : ℝ)]] [(1 : ℝ)] 3,
        List.replicate (3 + 1) (0 : ℝ)) :=
  ⟨⟨rfl, rfl⟩, claim_C7_evolve_pair_same ⟨[[(2 : ℝ)]]⟩ ⟨[1], [(1 : ℝ)]⟩ 3 ⟨rfl, rfl⟩⟩

/-- C8: for every model with `d ≥ 1` (on a 0×0 matrix both methods raise
on numpy's empty `np.max` reduction and neither returns a value),
`power_norm(1)` returns exactly `operator_norm()`:
`np.linalg.matrix_power(T, 1)` is `T` itself, and both then take the
largest singular value of the same matrix. -/
theorem claim_C8_power_norm_one (m : CGModel) (hd : 0 < m.T_infty.length) :
    m.power_norm 1 = .ok m.operator_norm := by
  rw [CGModel.power_norm, if_neg (by norm_num)]
  rfl

/-- Witness for C8 at the 1×1 model `T = [[2]]`. -/
theorem claim_C8_power_norm_one_witness :
    0 < ([[(2 : ℝ)]] : List (List ℝ)).length ∧
    (CGModel.mk [[(2 : ℝ)]]).power_norm 1 = .ok (CGModel.mk [[(2 : ℝ)]]).operator_norm :=
  ⟨by decide, claim_C8_power_norm_one ⟨[[(2 : ℝ)]]⟩ (by decide)⟩

/-- C10 (implicit): `evolve` with a negative `n_steps` does not fail; for a
valid initial vector it returns the single-row trajectory `[psi0]`, the
same result as `evolve(v, 0)` (the step loop runs zero times). -/
theorem claim_C10_negative_steps (m : CGModel) (p : NDArray) (nSteps : Int)
    (hn : nSteps < 0) (h : validVec m p) :
    m.evolve p nSteps = .ok [p.flat] ∧ m.evolve p nSteps = m.evolve p 0 := by
  have ht : nSteps.toNat = 0 := by omega
  constructor
  · rw [evolve_eq_ok m p _ h, ht]
    rfl
  · rw [evolve_eq_ok m p _ h, evolve_eq_ok m p _ h, ht]
    rfl

/-- Witness for C10 at the 1×1 model `T = [[2]]`, `v = [1]`, `n_steps = -3`. -/
theorem claim_C10_negative_steps_witness :
    (-3 : Int) < 0 ∧ validVec ⟨[[(2 : ℝ)]]⟩ ⟨[1], [(1 : ℝ)]⟩ ∧
    ((CGModel.mk [[(2 : ℝ)]]).evolve ⟨[1], [(1 : ℝ)]⟩ (-3) = .ok [[(1 : ℝ)]] ∧
      (CGModel.mk [[(2 : ℝ)]]).evolve ⟨[1], [(1 : ℝ)]⟩ (-3) =
        (CGModel.mk [[(2 : ℝ)]]).evolve ⟨[1], [(1 : ℝ)]⟩ 0) :=
  ⟨by decide, ⟨rfl, rfl⟩,
    claim_C10_negative_steps ⟨[[(2 : ℝ)]]⟩ ⟨[1], [(1 : ℝ)]⟩ (-3) (by decide) ⟨rfl, rfl⟩⟩

/-- C2 counterexample: the 0×0 ndarray (`np.zeros((0, 0))`, rank-2 and
square) is accepted by construction, producing a model of dimension 0 —
the claimed invariant `d ≥ 1` is not enforced. -/
theorem claim_C2_counterexample :
    mkCGModel ⟨[0, 0], []⟩ = .ok ⟨[]⟩ ∧ CGModel.dim ⟨[]⟩ = 0 :=
  ⟨rfl, rfl⟩

/-- C2 (amended): every successfully constructed model stores the square
`d × d` floating-point copy of the caller's rank-2 square input, with
`d = shape[0] ≥ 0`; construction checks only that the input is rank-2 and
square (neither `d ≥ 1` nor finiteness of the entries is checked). -/
theorem claim_C2_construction_invariant (a : NDArray) (mdl : CGModel)
    (hwf : a.wf) (h : mkCGModel a = .ok mdl) :
    a.ndim = 2 ∧ a.shape.getD 0 0 = a.shape.getD 1 0 ∧
    mdl.T_infty = a.toRows ∧
    mdl.dim = a.shape.getD 0 0 ∧
    ∀ row ∈ mdl.T_infty, row.length = a.shape.getD 0 0 := by
  rw [mkCGModel] at h
  by_cases hc : a.ndim ≠ 2 ∨ a.shape.getD 0 0 ≠ a.shape.getD 1 0
  · rw [if_pos hc] at h
    exact absurd h (by simp)
  · rw [if_neg hc] at h
    push_neg at hc
    obtain ⟨h2, hsq⟩ := hc
    have hm : mdl = ⟨a.toRows⟩ := by
      cases h
      rfl
    obtain ⟨s0, s1, hshape⟩ := List.length_eq_two.mp h2
    have hgd0 : a.shape.getD 0 0 = s0 := by rw [hshape]; rfl
    have hgd1 : a.shape.getD 1 0 = s1 := by rw [hshape]; rfl
    have hss : s0 = s1 := by rw [← hgd0, ← hgd1, hsq]
    subst hss
    have hflat : a.flat.length = s0 * s0 := by
      rw [NDArray.wf, hshape] at hwf
      simpa using hwf
    refine ⟨h2, hsq, by rw [hm], ?_, ?_⟩
    · rw [hm, CGModel.dim, NDArray.toRows]
      simp
    · intro row hrow
      rw [hm] at hrow
      rw [NDArray.toRows] at hrow
      simp only [List.mem_map, List.mem_range] at hrow
      obtain ⟨i, hi, hrow⟩ := hrow
      rw [hgd0] at hi ⊢
      rw [hgd1] at hrow
      rw [← hrow, List.length_take, List.length_drop, hflat]
      have h1 : (i + 1) * s0 ≤ s0 * s0 :=
        Nat.mul_le_mul (Nat.succ_le_of_lt hi) (le_refl s0)
      rw [Nat.succ_mul] at h1
      exact min_eq_left (Nat.le_sub_of_add_le (by omega))

/-- Witness for the amended C2 at the 1×1 input `[[3]]`. -/
theorem claim_C2_construction_invariant_witness :
    NDArray.wf ⟨[1, 1], [(3 : ℝ)]⟩ ∧
    mkCGModel ⟨[1, 1], [(3 : ℝ)]⟩ = .ok ⟨[[(3 : ℝ)]]⟩ ∧
    (NDArray.ndim ⟨[1, 1], [(3 : ℝ)]⟩ = 2 ∧
      (NDArray.shape ⟨[1, 1], [(3 : ℝ)]⟩).getD 0 0 =
        (NDArray.shape ⟨[1, 1], [(3 : ℝ)]⟩).getD 1 0 ∧
      CGModel.T_infty ⟨[[(3 : ℝ)]]⟩ = NDArray.toRows ⟨[1, 1], [(3 : ℝ)]⟩ ∧
      CGModel.dim ⟨[[(3 : ℝ)]]⟩ = (NDArray.shape ⟨[1, 1], [(3 : ℝ)]⟩).getD 0 0 ∧
      ∀ row ∈ CGModel.T_infty ⟨[[(3 : ℝ)]]⟩,
        row.length = (NDArray.shape ⟨[1, 1], [(3 : ℝ)]⟩).getD 0 0) :=
  ⟨rfl, rfl, claim_C2_construction_invariant ⟨[1, 1], [(3 : ℝ)]⟩ ⟨[[(3 : ℝ)]]⟩ rfl rfl⟩

/-- C4: construction fails with ShapeError exactly when the input is not
rank-2 or not square; `evolve` (hence `evolve_pair` and
`estimate_lambda_CG`, which evolve first) fails with ShapeError exactly
when an initial vector is not 1-dimensional of length d.  In the embedded
`Except` semantics the error short-circuits the call, so no partial
result is produced. -/
theorem claim_C4_shape_error_iff :
    (∀ a : NDArray, mkCGModel a = .error .shapeError ↔
        ¬ (a.ndim = 2 ∧ a.shape.getD 0 0 = a.shape.getD 1 0)) ∧
    (∀ (m : CGModel) (p : NDArray) (n : Int),
        m.evolve p n = .error .shapeError ↔ ¬ validVec m p) ∧
    (∀ (m : CGModel) (p p' : NDArray) (n : Int),
        m.evolve_pair p p' n = .error .shapeError ↔
          (¬ validVec m p ∨ ¬ validVec m p')) ∧
    (∀ (m : CGModel) (p p' : NDArray) (n fitStart fitEnd : Int),
        m.estimate_lambda_CG p p' n fitStart fitEnd = .error .shapeError ↔
          (¬ validVec m p ∨ ¬ validVec m p')) := by
  refine ⟨fun a => ?_, fun m p n => ?_, fun m p p' n => ?_, fun m p p' n fs fe => ?_⟩
  · rw [mkCGModel]
    by_cases hc : a.ndim ≠ 2 ∨ a.shape.getD 0 0 ≠ a.shape.getD 1 0
    · rw [if_pos hc]
      simp only [true_iff]
      tauto
    · rw [if_neg hc]
      push_neg at hc
      constructor
      · intro hcontra
        exact absurd hcontra (by simp)
      · intro hn
        exact absurd ⟨hc.1, hc.2⟩ hn
  · rw [evolve_error_iff]
    simp
  · rw [evolve_pair_error_iff]
    simp
  · by_cases hv : ¬ validVec m p ∨ ¬ validVec m p'
    · simp [estimate_eq_err m p p' n fs fe hv, hv]
    · push_neg at hv
      rw [estimate_eq_of_valid m p p' n fs fe hv.1 hv.2]
      split
      · simp [hv.1, hv.2]
      · simp [hv.1, hv.2]

/-- C5: in `estimate_lambda_CG`, `fit_start` is clamped to `≥ 0` and
`fit_end` to `≤ n_steps` (the last valid index of the length-`n_steps+1`
distance sequence); the returned index array is exactly the half-open
window `[fit_start, fit_end)` of the clamped bounds, the fitted logarithms
are the logs of the distance slice over that window, and the clamped
`fit_end` index itself is excluded from the fit. -/
theorem claim_C5_fit_window_slicing (m : CGModel) (p p' : NDArray) (n : Nat)
    (fitStart fitEnd : Int) (h : validVec m p) (h' : validVec m p')
    (hw : max fitStart 0 + 1 < min fitEnd (n : Int)) :
    m.estimate_lambda_CG p p' (n : Int) fitStart fitEnd =
      .ok (polyfitSlope
          ((List.range' (max fitStart 0).toNat
              ((min fitEnd (n : Int)).toNat - (max fitStart 0).toNat)).map fun i => (i : ℝ))
          ((((distSeq (trajFrom m.T_infty p.flat n) (trajFrom m.T_infty p'.flat n)).drop
              (max fitStart 0).toNat).take
              ((min fitEnd (n : Int)).toNat - (max fitStart 0).toNat)).map Real.log),
        List.range' (max fitStart 0).toNat
          ((min fitEnd (n : Int)).toNat - (max fitStart 0).toNat),
        (((distSeq (trajFrom m.T_infty p.flat n) (trajFrom m.T_infty p'.flat n)).drop
            (max fitStart 0).toNat).take
            ((min fitEnd (n : Int)).toNat - (max fitStart 0).toNat)).map Real.log) ∧
    (∀ k : Nat,
        k ∈ List.range' (max fitStart 0).toNat
            ((min fitEnd (n : Int)).toNat - (max fitStart 0).toNat) ↔
          ((max fitStart 0).toNat ≤ k ∧ k < (min fitEnd (n : Int)).toNat)) ∧
    (min fitEnd (n : Int)).toNat ∉
      List.range' (max fitStart 0).toNat
        ((min fitEnd (n : Int)).toNat - (max fitStart 0).toNat) := by
  have hges : (0 : Int) ≤ max fitStart 0 := le_max_right _ _
  have hmle : min fitEnd (n : Int) ≤ (n : Int) := min_le_right _ _
  have hmem : ∀ k : Nat,
      k ∈ List.range' (max fitStart 0).toNat
          ((min fitEnd (n : Int)).toNat - (max fitStart 0).toNat) ↔
        ((max fitStart 0).toNat ≤ k ∧ k < (min fitEnd (n : Int)).toNat) := by
    intro k
    rw [List.mem_range']
    constructor
    · rintro ⟨i, hi, rfl⟩
      omega
    · rintro ⟨h1, h2⟩
      exact ⟨k - (max fitStart 0).toNat, by omega, by omega⟩
  refine ⟨?_, hmem, by rw [hmem]; omega⟩
  have htn : ((n : Int)).toNat = n := by omega
  rw [estimate_eq_of_valid m p p' _ _ _ h h', htn, if_neg (by omega)]
  have h1 : (min fitEnd (n : Int) - max fitStart 0).toNat =
      (min fitEnd (n : Int)).toNat - (max fitStart 0).toNat := by
    omega
  rw [h1, List.range_eq_range', drop_range' (n + 1) (max fitStart 0).toNat 0, take_range']
  have h2 : 0 + (max fitStart 0).toNat = (max fitStart 0).toNat := by omega
  have h3 : min ((min fitEnd (n : Int)).toNat - (max fitStart 0).toNat)
      (n + 1 - (max fitStart 0).toNat) =
      (min fitEnd (n : Int)).toNat - (max fitStart 0).toNat := by
    omega
  rw [h2, h3]

/-- Witness for C5: 1×1 model, `n_steps = 10`, `fit_start = 2`,
`fit_end = 7`. -/
theorem claim_C5_fit_window_slicing_witness :
    (max (2 : Int) 0 + 1 < min 7 ((10 : Nat) : Int)) ∧
    ((CGModel.mk [[(2 : ℝ)]]).estimate_lambda_CG ⟨[1], [(1 : ℝ)]⟩ ⟨[1], [(1 : ℝ)]⟩
        ((10 : Nat) : Int) 2 7 =
      .ok (polyfitSlope
          ((List.range' (max (2 : Int) 0).toNat
              ((min 7 ((10 : Nat) : Int)).toNat - (max (2 : Int) 0).toNat)).map fun i => (i : ℝ))
          ((((distSeq (trajFrom [[(2 : ℝ)]] [(1 : ℝ)] 10)
                (trajFrom [[(2 : ℝ)]] [(1 : ℝ)] 10)).drop
              (max (2 : Int) 0).toNat).take
              ((min 7 ((10 : Nat) : Int)).toNat - (max (2 : Int) 0).toNat)).map Real.log),
        List.range' (max (2 : Int) 0).toNat
          ((min 7 ((10 : Nat) : Int)).toNat - (max (2 : Int) 0).toNat),
        (((distSeq (trajFrom [[(2 : ℝ)]] [(1 : ℝ)] 10)
              (trajFrom [[(2 : ℝ)]] [(1 : ℝ)] 10)).drop
            (max (2 : Int) 0).toNat).take
            ((min 7 ((10 : Nat) : Int)).toNat - (max (2 : Int) 0).toNat)).map Real.log) ∧
      (∀ k : Nat,
          k ∈ List.range' (max (2 : Int) 0).toNat
              ((min 7 ((10 : Nat) : Int)).toNat - (max (2 : Int) 0).toNat) ↔
            ((max (2 : Int) 0).toNat ≤ k ∧ k < (min 7 ((10 : Nat) : Int)).toNat)) ∧
      (min 7 ((10 : Nat) : Int)).toNat ∉
        List.range' (max (2 : Int) 0).toNat
          ((min 7 ((10 : Nat) : Int)).toNat - (max (2 : Int) 0).toNat)) :=
  ⟨by decide,
    claim_C5_fit_window_slicing ⟨[[(2 : ℝ)]]⟩ ⟨[1], [(1 : ℝ)]⟩ ⟨[1], [(1 : ℝ)]⟩
      10 2 7 ⟨rfl, rfl⟩ ⟨rfl, rfl⟩ (by decide)⟩

/-- C6: given shape-valid initial vectors, `estimate_lambda_CG` fails with
FitWindowError if and only if, after clamping, `fit_end ≤ fit_start + 1`. -/
theorem claim_C6_fit_window_error_iff (m : CGModel) (p p' : NDArray)
    (nSteps fitStart fitEnd : Int) (h : validVec m p) (h' : validVec m p') :
    m.estimate_lambda_CG p p' nSteps fitStart fitEnd = .error .fitWindowError ↔
      min fitEnd (nSteps.toNat : Int) ≤ max fitStart 0 + 1 := by
  rw [estimate_eq_of_valid m p p' _ _ _ h h']
  split_ifs with hc
  · exact iff_of_true rfl hc
  · constructor
    · intro hcontra
      exact absurd hcontra (by simp)
    · intro hcond
      exact absurd hcond hc

/-- Witness for C6: `fit_start = 10`, `fit_end = 11` (the spec's example)
on a 1×1 model with 20 steps. -/
theorem claim_C6_fit_window_error_iff_witness :
    validVec ⟨[[(2 : ℝ)]]⟩ ⟨[1], [(1 : ℝ)]⟩ ∧
    ((CGModel.mk [[(2 : ℝ)]]).estimate_lambda_CG ⟨[1], [(1 : ℝ)]⟩ ⟨[1], [(1 : ℝ)]⟩
        20 10 11 = .error .fitWindowError ↔
      min 11 (((20 : Int)).toNat : Int) ≤ max 10 0 + 1) :=
  ⟨⟨rfl, rfl⟩,
    claim_C6_fit_window_error_iff ⟨[[(2 : ℝ)]]⟩ ⟨[1], [(1 : ℝ)]⟩ ⟨[1], [(1 : ℝ)]⟩
      20 10 11 ⟨rfl, rfl⟩ ⟨rfl, rfl⟩⟩

/-- C1 counterexample: with `psi0 = psi0_prime` every in-window distance is
zero (non-positive), yet `estimate_lambda_CG` does not fail with
FitDataError — it proceeds to the logarithms and returns a result. -/
theorem claim_C1_counterexample :
    (CGModel.mk [[(2 : ℝ)]]).estimate_lambda_CG ⟨[1], [(1 : ℝ)]⟩ ⟨[1], [(1 : ℝ)]⟩ 4 0 4 ≠
      Except.error CGErr.fitDataError ∧
    (distSeq (trajFrom [[(2 : ℝ)]] [(1 : ℝ)] 4)
        (trajFrom [[(2 : ℝ)]] [(1 : ℝ)] 4)).getD 2 1 ≤ 0 := by
  constructor
  · rw [estimate_eq_of_valid ⟨[[(2 : ℝ)]]⟩ ⟨[1], [(1 : ℝ)]⟩ ⟨[1], [(1 : ℝ)]⟩ 4 0 4
      ⟨rfl, rfl⟩ ⟨rfl, rfl⟩, if_neg (by decide)]
    simp
  · rw [distSeq_self, trajFrom_length]
    norm_num [List.getD_eq_getElem?_getD, List.getElem?_replicate]

/-- C1 (amended): `estimate_lambda_CG` never fails with FitDataError — the
code performs no non-positivity check on the in-window distances (their
logarithms are taken and fitted as-is); the only errors it can surface are
ShapeError and FitWindowError. -/
theorem claim_C1_amended_no_fit_data_error (m : CGModel) (p p' : NDArray)
    (nSteps fitStart fitEnd : Int) (e : CGErr)
    (h : m.estimate_lambda_CG p p' nSteps fitStart fitEnd = .error e) :
    e = .shapeError ∨ e = .fitWindowError := by
  by_cases hv : ¬ validVec m p ∨ ¬ validVec m p'
  · rw [estimate_eq_err m p p' nSteps fitStart fitEnd hv] at h
    exact Or.inl (Except.error.inj h).symm
  · push_neg at hv
    rw [estimate_eq_of_valid m p p' _ _ _ hv.1 hv.2] at h
    split_ifs at h with hc
    exact Or.inr (Except.error.inj h).symm

/-- Witness for the amended C1: a run that fails (with FitWindowError)
exercises the theorem at a concrete erroring input. -/
theorem claim_C1_amended_no_fit_data_error_witness :
    CGErr.fitWindowError = CGErr.shapeError ∨
      CGErr.fitWindowError = CGErr.fitWindowError :=
  claim_C1_amended_no_fit_data_error ⟨[[(2 : ℝ)]]⟩ ⟨[1], [(1 : ℝ)]⟩ ⟨[1], [(1 : ℝ)]⟩
    20 10 11 CGErr.fitWindowError rfl

/-- C9: for every model with `d ≥ 1` (on a 0×0 matrix both calls raise on
numpy's empty reduction), the spectral radius — the largest eigenvalue
modulus — is at most the operator 2-norm (the largest singular value). -/
theorem claim_C9_spectral_radius_le_operator_norm (m : CGModel)
    (hd : 0 < m.T_infty.length) :
    m.spectral_radius ≤ m.operator_norm := by
  rw [CGModel.spectral_radius, CGModel.operator_norm]
  haveI : Nonempty (Fin m.T_infty.length) := ⟨⟨0, hd⟩⟩
  haveI : Nontrivial (EuclideanSpace ℂ (Fin m.T_infty.length)) :=
    (WithLp.equiv 2 (Fin m.T_infty.length → ℂ)).nontrivial
  apply Real.sSup_le
  · rintro x ⟨z, hz, rfl⟩
    have hz' : z ∈ spectrum ℂ (Matrix.toEuclideanCLM (𝕜 := ℂ) (toMatC m.T_infty)) := by
      rw [AlgEquiv.spectrum_eq Matrix.toEuclideanCLM (toMatC m.T_infty)]
      exact hz
    have hb := spectrum.norm_le_norm_of_mem hz'
    rwa [Complex.norm_eq_abs] at hb
  · exact norm_nonneg _

/-- Witness for C9 at the 1×1 model `T = [[2]]`. -/
theorem claim_C9_spectral_radius_le_operator_norm_witness :
    0 < ([[(2 : ℝ)]] : List (List ℝ)).length ∧
    (CGModel.mk [[(2 : ℝ)]]).spectral_radius ≤ (CGModel.mk [[(2 : ℝ)]]).operator_norm :=
  ⟨by decide, claim_C9_spectral_radius_le_operator_norm ⟨[[(2 : ℝ)]]⟩ (by decide)⟩

end ChaosCG
